import Mathlib

/-!
Verification development for the textual front/back-end of the cel-go
expression language: the literal-escape decoder and the unparser
(expression printer) of src/parser/unparser.go, together with the
operator metadata table they consult.

Conventions of the embedding:
- Go strings written to the output builder are modelled as lists of
  characters; lengths are counted in characters (Go counts bytes, which
  coincides on the ASCII output exercised here, and the final line-break
  pass in Go itself works on runes).
- Go functions that return an error value are modelled with Except;
  an uncontrolled Go runtime failure (slice index out of range, nil
  dereference) is modelled by the distinguished Failure.panic value,
  which is not an error return.
- Machine integers (int32 offsets, int64 ids) are modelled by Int and
  Nat; no arithmetic here ever approaches the overflow range.
-/

namespace operators

/-- Modelled from the spec: canonical operator names of the operator
metadata table (package common/operators, which is not under src/). -/
def Conditional : String := "_?_:_"

def LogicalAnd : String := "_&&_"

def LogicalOr : String := "_||_"

def LogicalNot : String := "!_"

def Equals : String := "_==_"

def NotEquals : String := "_!=_"

def Less : String := "_<_"

def LessEquals : String := "_<=_"

def Greater : String := "_>_"

def GreaterEquals : String := "_>=_"

def Add : String := "_+_"

def Subtract : String := "_-_"

def Multiply : String := "_*_"

def Divide : String := "_/_"

def Modulo : String := "_%_"

def Negate : String := "-_"

def Index : String := "_[_]"

def In : String := "@in"

def OldIn : String := "_in_"

/-- Modelled from the spec: the numeric precedence lookup of the operator
metadata table (package common/operators, not under src/); unknown names
signal a regular function call and get the neutral value 0.  The numbers
are chosen so that a LARGER number binds LOOSER (ternary loosest, index
tightest): this orientation is forced by the way isLowerPrecedence in
src/parser/unparser.go compares them with the < operator, together with
the parenthesization behaviour the spec describes (for example the left
operand of a multiplication is parenthesized when it is a logical-or
call).  The abstract rank of the spec, where a lower rank binds looser,
is therefore the reverse ordering of this numbering. -/
def Precedence (op : String) : Int :=
  if op = Conditional then 8
  else if op = LogicalOr then 7
  else if op = LogicalAnd then 6
  else if op = Equals ∨ op = Greater ∨ op = GreaterEquals ∨ op = In ∨
      op = Less ∨ op = LessEquals ∨ op = NotEquals ∨ op = OldIn then 5
  else if op = Add ∨ op = Subtract then 4
  else if op = Divide ∨ op = Modulo ∨ op = Multiply then 3
  else if op = LogicalNot ∨ op = Negate then 2
  else if op = Index then 1
  else 0

/-- Modelled from the spec: the display-symbol lookup of the operator
metadata table (package common/operators, not under src/): mangled
operator name to display symbol, not-found for regular functions. -/
def FindReverse (op : String) : Option String :=
  if op = Add then some "+"
  else if op = Divide then some "/"
  else if op = Equals then some "=="
  else if op = Greater then some ">"
  else if op = GreaterEquals then some ">="
  else if op = In then some "in"
  else if op = LessEquals then some "<="
  else if op = Less then some "<"
  else if op = LogicalAnd then some "&&"
  else if op = LogicalNot then some "!"
  else if op = LogicalOr then some "||"
  else if op = Modulo then some "%"
  else if op = Multiply then some "*"
  else if op = Negate then some "-"
  else if op = NotEquals then some "!="
  else if op = OldIn then some "in"
  else if op = Subtract then some "-"
  else none

end operators

/-- Constant payload of a literal node (exprpb.Constant).  The Double
variant of the proto is omitted: its rendering is 64-bit floating point
formatting, which is outside this embedding and touched by no claim. -/
inductive Constant where
  | boolV (b : Bool)
  | bytesV (bs : String)
  | int64V (i : Int)
  | nullV
  | stringV (s : String)
  | uint64V (u : Nat)

mutual

/-- Expression node (exprpb.Expr): tagged union over the node kinds the
unparser dispatches on, each carrying the int64 id used to key the
source position map. -/
inductive Expr where
  | callE (id : Nat) (target : Option Expr) (function : String) (args : List Expr)
  | comprehensionE (id : Nat)
  | constE (id : Nat) (c : Constant)
  | identE (id : Nat) (name : String)
  | listE (id : Nat) (elements : List Expr)
  | selectE (id : Nat) (operand : Expr) (field : String) (testOnly : Bool)
  | structE (id : Nat) (messageName : String) (entries : List Entry)

/-- Struct or map entry (exprpb.Expr_CreateStruct_Entry): either a
field-keyed message entry or an expression-keyed map entry. -/
inductive Entry where
  | fieldEntry (id : Nat) (fieldKey : String) (value : Expr)
  | mapEntry (id : Nat) (mapKey : Expr) (value : Expr)

end

/-- Source position metadata (exprpb.SourceInfo): per-id character
offsets plus the recorded line offsets, both produced by the parser. -/
structure SourceInfo where
  positions : List (Nat × Int)
  lineOffsets : List Int

/-- Unparser state: the read-only source info together with the string
builder accumulated so far (strings.Builder, modelled as a character
list). -/
structure Unparser where
  info : SourceInfo
  buf : List Char

/-- Write a literal string to the output builder (un.str.WriteString). -/
def writeString (un : Unparser) (s : String) : Unparser :=
  { un with buf := un.buf ++ s.data }

/-- Lookup in the Go map from id to offset, yielding the zero value 0
when the id has no entry (unparser.go pos, line 395). -/
def pos (un : Unparser) (id : Nat) : Int :=
  match un.info.positions.find? (fun p => p.1 = id) with
  | some p => p.2
  | none => 0

/-- Loop body of pad (unparser.go line 404): while last < next append one
space character. -/
def padLoop (buf : List Char) (last next : Int) : List Char :=
  if last < next then padLoop (buf ++ [' ']) (last + 1) next else buf
termination_by (next - last).toNat
decreasing_by simp_wf; omega

/-- Pad the output with spaces up to the recorded position of the id
(unparser.go pad, line 401). -/
def pad (un : Unparser) (id : Nat) : Unparser :=
  { un with buf := padLoop un.buf ((un.buf.length : Int)) (pos un id) }

/-- Renderer error values actually produced by the Go code via
fmt.Errorf: the unimplemented comprehension error (and the unreachable
constant default), and the unmangleable-operator error. -/
inductive RenderErr where
  | unimplemented (e : Expr)
  | cannotUnmangle (f : String)

/-- Outcome of a Go visit step that did not succeed: either an error
value returned through the error result (goError), or an uncontrolled
runtime panic such as a slice index out of range (panic). -/
inductive Failure where
  | goError (err : RenderErr)
  | panic

/-- The binary operator names dispatched to visitCallBinary by the
switch in visitCall (unparser.go lines 105-119). -/
def binaryOperators : List String :=
  [operators.Add, operators.Divide, operators.Equals, operators.Greater,
   operators.GreaterEquals, operators.In, operators.Less,
   operators.LessEquals, operators.LogicalAnd, operators.LogicalOr,
   operators.Modulo, operators.Multiply, operators.NotEquals,
   operators.OldIn, operators.Subtract]

/-- Whether the parser resolves the operator left-recursively: every
operator except logical-and and logical-or (unparser.go line 411). -/
def isLeftRecursive (op : String) : Bool :=
  op != operators.LogicalAnd && op != operators.LogicalOr

/-- Whether the input operator has the same precedence as the operator
of the (possible) call in the expression; false for non-calls
(unparser.go line 419). -/
def isSamePrecedence (op : String) (e : Expr) : Bool :=
  match e with
  | .callE _ _ other _ => decide (operators.Precedence op = operators.Precedence other)
  | _ => false

/-- Whether the input operator has lower precedence than the operator of
the (possible) call in the expression; false for non-calls
(unparser.go line 432). -/
def isLowerPrecedence (op : String) (e : Expr) : Bool :=
  match e with
  | .callE _ _ other _ => decide (operators.Precedence op < operators.Precedence other)
  | _ => false

/-- Right-operand parenthesization decision of visitCallBinary
(unparser.go lines 137-140): lower precedence, or same precedence when
the operator is left recursive. -/
def rhsParenFlag (f : String) (rhs : Expr) : Bool :=
  let rhsParen := isLowerPrecedence f rhs
  if !rhsParen && isLeftRecursive f then isSamePrecedence f rhs else rhsParen

/-- Comprehensions are unsupported: visiting one always errors with the
explicit unimplemented error (unparser.go visitComprehension, line 236). -/
def visitComprehension (_un : Unparser) (e : Expr) : Except Failure Unparser :=
  .error (.goError (.unimplemented e))

/-- Quote one character the way strconv.Quote does for the characters
that can occur here (backslash, quote and common control characters);
the full Go table for other non-printables is not needed by any claim. -/
def quoteChar (c : Char) : String :=
  if c = '"' then "\\\""
  else if c = '\\' then "\\\\"
  else if c = '\n' then "\\n"
  else if c = '\t' then "\\t"
  else if c = '\r' then "\\r"
  else String.singleton c

/-- Double-quote a string constant with escaping (strconv.Quote). -/
def strconvQuote (s : String) : String :=
  "\"" ++ String.join (s.data.map quoteChar) ++ "\""

/-- Render a constant (unparser.go visitConst, line 242): bool as
true/false, bytes wrapped raw in a b-prefixed double quote, int64 in
base 10, null, strings via strconv.Quote, uint64 with a u suffix. -/
def visitConst (un : Unparser) (id : Nat) (c : Constant) : Unparser :=
  let un := pad un id
  match c with
  | .boolV b => writeString un (cond b "true" "false")
  | .bytesV bs => writeString (writeString (writeString un "b\"") bs) "\""
  | .int64V i => writeString un (toString i)
  | .nullV => writeString un "null"
  | .stringV s => writeString un (strconvQuote s)
  | .uint64V u => writeString (writeString un (toString u)) "u"

/-- Render an identifier (unparser.go visitIdent, line 277). -/
def visitIdent (un : Unparser) (id : Nat) (name : String) : Unparser :=
  writeString (pad un id) name

mutual

/-- Visit dispatch over the node kinds (unparser.go visit, line 70).
The Go default branch for an unknown or nil node kind is unreachable on
this closed node type and is omitted. -/
def visit (un : Unparser) (e : Expr) : Except Failure Unparser :=
  match e with
  | .callE id tgt f args => visitCall un id tgt f args
  | .comprehensionE id => visitComprehension un (.comprehensionE id)
  | .constE id c => .ok (visitConst un id c)
  | .identE id name => .ok (visitIdent un id name)
  | .listE id elems => visitList un id elems
  | .selectE id operand field testOnly => visitSelect un id operand field testOnly
  | .structE id msg entries => visitStruct un id msg entries
termination_by (sizeOf e, 1)

/-- Call dispatch on the function name (unparser.go visitCall, line 91):
ternary, index, the two unary operators, the binary operators, and
otherwise a standard function call. -/
def visitCall (un : Unparser) (id : Nat) (tgt : Option Expr) (f : String)
    (args : List Expr) : Except Failure Unparser :=
  if f = operators.Conditional then visitCallConditional un id args
  else if f = operators.Index then visitCallIndex un id args
  else if f = operators.LogicalNot ∨ f = operators.Negate then visitCallUnary un id f args
  else if f ∈ binaryOperators then visitCallBinary un id f args
  else visitCallFunc un id tgt f args
termination_by (sizeOf tgt + sizeOf args, 9)
decreasing_by
  all_goals have htgt : 0 < sizeOf tgt := by cases tgt <;> simp_arith
  all_goals decreasing_with omega

/-- Binary operator call (unparser.go visitCallBinary, line 127): left
operand with parens when strictly lower precedence, the display symbol
padded between single spaces, right operand with parens when lower or
equal-and-left-recursive precedence.  Go indexes args before visiting,
so fewer than two arguments is an uncontrolled index panic. -/
def visitCallBinary (un : Unparser) (id : Nat) (f : String)
    (args : List Expr) : Except Failure Unparser :=
  match args with
  | lhs :: rhs :: _ =>
    let lhsParen := isLowerPrecedence f lhs
    let rhsParen := rhsParenFlag f rhs
    match visitMaybeNested un lhs lhsParen with
    | .error er => .error er
    | .ok un1 =>
      match operators.FindReverse f with
      | none => .error (.goError (.cannotUnmangle f))
      | some unmangled =>
        visitMaybeNested
          (writeString (writeString (pad (writeString un1 " ") id) unmangled) " ")
          rhs rhsParen
  | _ => .error .panic
termination_by (sizeOf args, 8)

/-- Ternary call (unparser.go visitCallConditional, line 156): each of
the three operands parenthesized exactly when it is itself a call of the
same precedence as the conditional.  The three argument-shape branches
mirror the sequential Go code, which visits each present operand before
indexing the next position: a missing position is an uncontrolled index
panic, reached only after the earlier operands were visited. -/
def visitCallConditional (un : Unparser) (id : Nat)
    (args : List Expr) : Except Failure Unparser :=
  match args with
  | a0 :: a1 :: a2 :: _ =>
    match visitMaybeNested un a0 (isSamePrecedence operators.Conditional a0) with
    | .error er => .error er
    | .ok un1 =>
      match visitMaybeNested (writeString (pad un1 id) "? ") a1
          (isSamePrecedence operators.Conditional a1) with
      | .error er => .error er
      | .ok un3 =>
        visitMaybeNested (writeString un3 " : ") a2
          (isSamePrecedence operators.Conditional a2)
  | [a0, a1] =>
    match visitMaybeNested un a0 (isSamePrecedence operators.Conditional a0) with
    | .error er => .error er
    | .ok un1 =>
      match visitMaybeNested (writeString (pad un1 id) "? ") a1
          (isSamePrecedence operators.Conditional a1) with
      | .error er => .error er
      | .ok _ => .error .panic
  | [a0] =>
    match visitMaybeNested un a0 (isSamePrecedence operators.Conditional a0) with
    | .error er => .error er
    | .ok _ => .error .panic
  | [] => .error .panic
termination_by (sizeOf args, 8)

/-- Index call (unparser.go visitCallIndex, line 206): base, padded
opening bracket, key, closing bracket.  The two argument-shape branches
mirror the sequential Go code: the base is visited before the key
position is indexed, and a missing position is an uncontrolled index
panic. -/
def visitCallIndex (un : Unparser) (id : Nat)
    (args : List Expr) : Except Failure Unparser :=
  match args with
  | a0 :: a1 :: _ =>
    match visit un a0 with
    | .error er => .error er
    | .ok un1 =>
      match visit (writeString (pad un1 id) "[") a1 with
      | .error er => .error er
      | .ok un3 => .ok (writeString un3 "]")
  | [a0] =>
    match visit un a0 with
    | .error er => .error er
    | .ok _ => .error .panic
  | [] => .error .panic
termination_by (sizeOf args, 8)

/-- Unary operator call (unparser.go visitCallUnary, line 223): pad,
display symbol, then the operand with no parenthesization. -/
def visitCallUnary (un : Unparser) (id : Nat) (f : String)
    (args : List Expr) : Except Failure Unparser :=
  let un1 := pad un id
  match operators.FindReverse f with
  | none => .error (.goError (.cannotUnmangle f))
  | some unmangled =>
    let un2 := writeString un1 unmangled
    match args with
    | a0 :: _ => visit un2 a0
    | [] => .error .panic
termination_by (sizeOf args, 8)

/-- Standard function call (unparser.go visitCallFunc, line 179):
optional target and dot, function name, padded opening parenthesis,
arguments joined with bare commas, closing parenthesis. -/
def visitCallFunc (un : Unparser) (id : Nat) (tgt : Option Expr) (f : String)
    (args : List Expr) : Except Failure Unparser :=
  let afterTarget : Except Failure Unparser :=
    match tgt with
    | some t =>
      match visit un t with
      | .error er => .error er
      | .ok un1 => .ok (writeString un1 ".")
    | none => .ok un
  match afterTarget with
  | .error er => .error er
  | .ok un1 =>
    let un2 := writeString (pad (writeString un1 f) id) "("
    match visitExprListSep un2 args "," with
    | .error er => .error er
    | .ok un3 => .ok (writeString un3 ")")
termination_by (sizeOf tgt + sizeOf args, 8)
decreasing_by
  all_goals first
    | (have htgt : 0 < sizeOf tgt := by cases tgt <;> simp_arith
       decreasing_with omega)
    | decreasing_tactic

/-- Shared loop shape of visitCallFunc and visitList (unparser.go lines
193-201 and 288-296): visit each element, writing the separator after
every element except the last. -/
def visitExprListSep (un : Unparser) (args : List Expr)
    (sep : String) : Except Failure Unparser :=
  match args with
  | [] => .ok un
  | [a] => visit un a
  | a :: rest =>
    match visit un a with
    | .error er => .error er
    | .ok un1 => visitExprListSep (writeString un1 sep) rest sep
termination_by (sizeOf args, 3)

/-- List literal (unparser.go visitList, line 283): padded opening
bracket, elements joined with bare commas, closing bracket. -/
def visitList (un : Unparser) (id : Nat)
    (elems : List Expr) : Except Failure Unparser :=
  let un1 := writeString (pad un id) "["
  match visitExprListSep un1 elems "," with
  | .error er => .error er
  | .ok un2 => .ok (writeString un2 "]")
termination_by (sizeOf elems, 8)

/-- Field selection (unparser.go visitSelect, line 301): operand, padded
dot, field name, wrapped in a has call when marked test-only. -/
def visitSelect (un : Unparser) (id : Nat) (operand : Expr) (field : String)
    (testOnly : Bool) : Except Failure Unparser :=
  let un0 := if testOnly then writeString un "has(" else un
  match visit un0 operand with
  | .error er => .error er
  | .ok un1 =>
    let un2 := writeString (writeString (pad un1 id) ".") field
    .ok (if testOnly then writeString un2 ")" else un2)
termination_by (sizeOf operand, 8)

/-- Struct literal dispatch (unparser.go visitStruct, line 320): message
construction when the type name is non-empty, else a map literal. -/
def visitStruct (un : Unparser) (id : Nat) (messageName : String)
    (entries : List Entry) : Except Failure Unparser :=
  if messageName ≠ "" then visitStructMsg un id messageName entries
  else visitStructMap un id entries
termination_by (sizeOf entries, 9)

/-- Message construction (unparser.go visitStructMsg, line 330): type
name, padded opening brace, field entries joined with comma-space,
closing brace. -/
def visitStructMsg (un : Unparser) (id : Nat) (messageName : String)
    (entries : List Entry) : Except Failure Unparser :=
  let un1 := writeString (pad (writeString un messageName) id) "\x7b"
  match visitMsgEntries un1 entries with
  | .error er => .error er
  | .ok un2 => .ok (writeString un2 "\x7d")
termination_by (sizeOf entries, 8)

/-- Entry loop of visitStructMsg (unparser.go lines 336-349): field key
(the proto getter yields the empty string on a map entry), padded colon,
value, comma-space between entries. -/
def visitMsgEntries (un : Unparser)
    (entries : List Entry) : Except Failure Unparser :=
  match entries with
  | [] => .ok un
  | .fieldEntry eid fkey value :: rest =>
    let un1 := writeString (pad (writeString un fkey) eid) ": "
    match visit un1 value with
    | .error er => .error er
    | .ok un2 =>
      visitMsgEntries (if rest.isEmpty then un2 else writeString un2 ", ") rest
  | .mapEntry eid _ value :: rest =>
    let un1 := writeString (pad (writeString un "") eid) ": "
    match visit un1 value with
    | .error er => .error er
    | .ok un2 =>
      visitMsgEntries (if rest.isEmpty then un2 else writeString un2 ", ") rest
termination_by (sizeOf entries, 3)

/-- Map literal (unparser.go visitStructMap, line 354): padded opening
brace, key-value entries joined with comma-space, closing brace. -/
def visitStructMap (un : Unparser) (id : Nat)
    (entries : List Entry) : Except Failure Unparser :=
  let un1 := writeString (pad un id) "\x7b"
  match visitMapEntries un1 entries with
  | .error er => .error er
  | .ok un2 => .ok (writeString un2 "\x7d")
termination_by (sizeOf entries, 8)

/-- Entry loop of visitStructMap (unparser.go lines 359-374): key
expression, padded colon, value, comma-space between entries.  On a
field-keyed entry the proto map-key getter yields nil and Go visits the
nil expression, which dereferences it: an uncontrolled panic. -/
def visitMapEntries (un : Unparser)
    (entries : List Entry) : Except Failure Unparser :=
  match entries with
  | [] => .ok un
  | .mapEntry eid k value :: rest =>
    match visit un k with
    | .error er => .error er
    | .ok un1 =>
      let un2 := writeString (pad un1 eid) ": "
      match visit un2 value with
      | .error er => .error er
      | .ok un3 =>
        visitMapEntries (if rest.isEmpty then un3 else writeString un3 ", ") rest
  | .fieldEntry _ _ _ :: _ => .error .panic
termination_by (sizeOf entries, 3)

/-- Optional parenthesization wrapper (unparser.go visitMaybeNested,
line 380): opening parenthesis when nested, the expression, closing
parenthesis when nested. -/
def visitMaybeNested (un : Unparser) (e : Expr)
    (nested : Bool) : Except Failure Unparser :=
  let un1 := if nested then writeString un "(" else un
  match visit un1 e with
  | .error er => .error er
  | .ok un2 => .ok (if nested then writeString un2 ")" else un2)
termination_by (sizeOf e, 2)

end

/-- Inner loop of the newline pass (unparser.go lines 53-58): starting
from the recorded offset br, repeatedly test the character at index
br - 1 while br - 1 < sz, turning the first space found into a line
break and stopping; when the scan runs past the end the break is
dropped.  A non-positive br makes Go index the rune slice at a negative
position, an uncontrolled panic, modelled as none. -/
def breakLoop (txt : List Char) (br : Int) : Option (List Char) :=
  if h1 : br - 1 < (txt.length : Int) then
    if h2 : br - 1 < 0 then none
    else
      if txt.get ⟨(br - 1).toNat, by omega⟩ = ' ' then
        some (txt.set (br - 1).toNat '\n')
      else breakLoop txt (br + 1)
  else some txt
termination_by ((txt.length : Int) - (br - 1)).toNat
decreasing_by simp_wf; omega

/-- Outer loop of the newline pass (unparser.go line 52): each recorded
offset is processed in order against the mutated rune slice. -/
def applyAllBreaks (txt : List Char) (breaks : List Int) : Option (List Char) :=
  match breaks with
  | [] => some txt
  | br :: rest =>
    match breakLoop txt br with
    | none => none
    | some txt1 => applyAllBreaks txt1 rest

/-- Newline stage of Unparse (unparser.go lines 44-59): with one or
fewer recorded line offsets the text is returned untouched; otherwise
every recorded offset is applied by the scan loop. -/
def applyLineBreaks (txt : List Char) (breaks : List Int) : Option (List Char) :=
  if breaks.length ≤ 1 then some txt
  else applyAllBreaks txt breaks

/-- Unparse (unparser.go line 38): visit the tree, returning the empty
string together with the error when the visit fails with a returned
error; on success run the newline stage.  The outer Option is none
exactly when the Go run panics instead of returning. -/
def Unparse (e : Expr) (info : SourceInfo) : Option (String × Option RenderErr) :=
  match visit { info := info, buf := [] } e with
  | .error .panic => none
  | .error (.goError r) => some ("", some r)
  | .ok un =>
    match applyLineBreaks un.buf info.lineOffsets with
    | none => none
    | some txt => some (String.mk txt, none)

/-!
Escape decoder.  The Go function unescape (parser/unescape.go) is not
under src/ — only its tests are (src/parser/unescape_test.go) — so the
decoder below is modelled from the spec, section 4.1, and validated
against every test in src/parser/unescape_test.go further down.
-/

/-- Decoder errors are a single kind carrying a describing message with
the offending substring, per the spec error taxonomy. -/
abbrev DecodeErr := String

/-- Octal digit test for the one-to-three digit octal escapes. -/
def isOctalDigit (c : Char) : Bool := 48 ≤ c.toNat && c.toNat ≤ 55

/-- Hex digit test for the hex and unicode escapes. -/
def isHexDigit (c : Char) : Bool :=
  (48 ≤ c.toNat && c.toNat ≤ 57) || (97 ≤ c.toNat && c.toNat ≤ 102) ||
    (65 ≤ c.toNat && c.toNat ≤ 70)

/-- Numeric value of an octal digit character. -/
def octalVal (c : Char) : Nat := c.toNat - 48

/-- Numeric value of a hex digit character. -/
def hexVal (c : Char) : Nat :=
  if 48 ≤ c.toNat && c.toNat ≤ 57 then c.toNat - 48
  else if 97 ≤ c.toNat && c.toNat ≤ 102 then c.toNat - 97 + 10
  else c.toNat - 65 + 10

/-- Standard UTF-8 encoding of a code point as its byte sequence, used
when a literal source character is copied in byte mode. -/
def utf8Encode (n : Nat) : List Nat :=
  if n < 128 then [n]
  else if n < 2048 then [192 + n / 64, 128 + n % 64]
  else if n < 65536 then [224 + n / 4096, 128 + (n / 64) % 64, 128 + n % 64]
  else [240 + n / 262144, 128 + (n / 4096) % 64, 128 + (n / 64) % 64, 128 + n % 64]

/-- Resolution of one backslash escape whose introducing character is c
and whose remaining input is rest2: the fixed single-character escapes,
the two-digit hex escape, the four- and eight-digit unicode escapes
(byte mode rejects them outright), and the one-to-three digit octal
escape with its 0-255 range check.  On success it yields the decoded
units of the escape together with the number of characters of rest2 the
escape consumed beyond its introducing character. -/
def escStep (c : Char) (rest2 : List Char)
    (isBytes : Bool) : Except DecodeErr (List Nat × Nat) :=
  if c = 'a' then .ok ([7], 0)
  else if c = 'b' then .ok ([8], 0)
  else if c = 'f' then .ok ([12], 0)
  else if c = 'n' then .ok ([10], 0)
  else if c = 'r' then .ok ([13], 0)
  else if c = 't' then .ok ([9], 0)
  else if c = 'v' then .ok ([11], 0)
  else if c = '\'' then .ok ([39], 0)
  else if c = '"' then .ok ([34], 0)
  else if c = '\\' then .ok ([92], 0)
  else if c = '?' then .ok ([63], 0)
  else if c = 'x' then
    match rest2 with
    | h1 :: h2 :: _ =>
      if isHexDigit h1 && isHexDigit h2 then
        .ok ([16 * hexVal h1 + hexVal h2], 2)
      else .error "hex escape needs exactly two hex digits"
    | _ => .error "hex escape needs exactly two hex digits"
  else if c = 'u' then
    if isBytes then .error "unicode escape is illegal in byte mode"
    else
      match rest2 with
      | h1 :: h2 :: h3 :: h4 :: _ =>
        if isHexDigit h1 && isHexDigit h2 && isHexDigit h3 && isHexDigit h4 then
          .ok ([4096 * hexVal h1 + 256 * hexVal h2 + 16 * hexVal h3 + hexVal h4], 4)
        else .error "unicode escape needs four hex digits"
      | _ => .error "unicode escape needs four hex digits"
  else if c = 'U' then
    if isBytes then .error "unicode escape is illegal in byte mode"
    else
      match rest2 with
      | h1 :: h2 :: h3 :: h4 :: h5 :: h6 :: h7 :: h8 :: _ =>
        if isHexDigit h1 && isHexDigit h2 && isHexDigit h3 && isHexDigit h4 &&
            isHexDigit h5 && isHexDigit h6 && isHexDigit h7 && isHexDigit h8 then
          .ok ([268435456 * hexVal h1 + 16777216 * hexVal h2 +
            1048576 * hexVal h3 + 65536 * hexVal h4 + 4096 * hexVal h5 +
            256 * hexVal h6 + 16 * hexVal h7 + hexVal h8], 8)
        else .error "unicode escape needs eight hex digits"
      | _ => .error "unicode escape needs eight hex digits"
  else if isOctalDigit c then
    match rest2 with
    | d2 :: d3 :: _ =>
      if isOctalDigit d2 && isOctalDigit d3 then
        if 64 * octalVal c + 8 * octalVal d2 + octalVal d3 <= 255 then
          .ok ([64 * octalVal c + 8 * octalVal d2 + octalVal d3], 2)
        else .error "octal escape value exceeds 255"
      else if isOctalDigit d2 then .ok ([8 * octalVal c + octalVal d2], 1)
      else .ok ([octalVal c], 0)
    | [d2] =>
      if isOctalDigit d2 then .ok ([8 * octalVal c + octalVal d2], 1)
      else .ok ([octalVal c], 0)
    | [] => .ok ([octalVal c], 0)
  else .error ("illegal escape " ++ String.singleton c)

/-- Scan loop of the decoder: literal characters are copied (one code
point in text mode, raw UTF-8 bytes in byte mode), a backslash hands
the resolution of one escape to escStep and continues after the
characters it consumed, and a trailing backslash is an unterminated
escape. -/
def scanBody (s : List Char) (isBytes : Bool) : Except DecodeErr (List Nat) :=
  match s with
  | [] => .ok []
  | ['\\'] => .error "unterminated escape at end of literal"
  | '\\' :: c :: rest2 =>
    match escStep c rest2 isBytes with
    | .error e => .error e
    | .ok (u, k) => (scanBody (rest2.drop k) isBytes).map (fun l => u ++ l)
  | c :: rest =>
    (scanBody rest isBytes).map (fun l =>
      if isBytes then utf8Encode c.toNat ++ l else c.toNat :: l)
termination_by s.length
decreasing_by
  · simp only [List.length_cons, List.length_drop]
    omega
  · simp only [List.length_cons]
    omega

/-- Modelled from the spec (section 4.1, step 1): classify the literal
delimiters — the quote character must be a single or double quote, the
literal is triple-delimited when it opens and closes with three
identical quote characters, otherwise it must be a matching
single-delimited pair; the delimiters are stripped to obtain the escape
body, and anything else is a malformed quote run. -/
def stripQuotes (tok : List Char) : Except DecodeErr (List Char) :=
  match tok with
  | [] => .error "malformed quote run: empty literal"
  | q :: _ =>
    if q ≠ '\'' ∧ q ≠ '"' then .error "malformed quote run: not a quoted literal"
    else if 6 ≤ tok.length ∧ tok.take 3 = [q, q, q] ∧
        (tok.reverse.take 3 = [q, q, q]) then
      .ok ((tok.drop 3).reverse.drop 3).reverse
    else if 2 ≤ tok.length ∧ tok.getLast? = some q then
      .ok ((tok.drop 1).reverse.drop 1).reverse
    else .error "malformed quote run: unterminated literal"

/-- Modelled from the spec (section 4.1): decode a quoted literal token
to its decoded units — code points in text mode, bytes in byte mode
(function unescape of parser/unescape.go, not under src/). -/
def unescape (value : String) (isBytes : Bool) : Except DecodeErr (List Nat) :=
  match stripQuotes value.data with
  | .error er => .error er
  | .ok body => scanBody body isBytes

/-!
Spec-side definitions.  These follow the wording of the claims (the
parenthesization policy, the line-break scan), to be compared with the
definitions taken from the source above.
-/

/-- Function name of a call node, none for non-call nodes. -/
def callFunction : Expr → Option String
  | .callE _ _ f _ => some f
  | _ => none

/-- Spec wording for the left operand: the operand is itself an operator
call (a call whose function carries a precedence rank) whose operator
has strictly lower rank — binds looser — than the current operator;
with the numbering of the modelled table, whose order is the reverse of
the rank, that is a strictly larger Precedence value. -/
def spec_lhsParen (f : String) (e : Expr) : Bool :=
  match callFunction e with
  | some g =>
    decide (operators.Precedence g ≠ 0) &&
      decide (operators.Precedence f < operators.Precedence g)
  | none => false

/-- Spec wording for equal rank: the operand is an operator call whose
operator has exactly the rank of the current operator. -/
def spec_sameRank (f : String) (e : Expr) : Bool :=
  match callFunction e with
  | some g =>
    decide (operators.Precedence g ≠ 0) &&
      decide (operators.Precedence f = operators.Precedence g)
  | none => false

/-- Spec wording for left recursion: every binary operator except
logical-and and logical-or. -/
def spec_leftRecursive (f : String) : Bool :=
  decide (f ≠ operators.LogicalAnd ∧ f ≠ operators.LogicalOr)

/-- Spec wording for the right operand: strictly lower rank, or exactly
equal rank while the current operator is left-recursive. -/
def spec_rhsParen (f : String) (e : Expr) : Bool :=
  spec_lhsParen f e || (spec_leftRecursive f && spec_sameRank f e)

/-- Spec wording for the ternary operands: the operand is itself a
conditional call. -/
def isConditionalCall (e : Expr) : Bool :=
  match e with
  | .callE _ _ f _ => decide (f = operators.Conditional)
  | _ => false

/-- Spec wording of the line-break scan: starting at index i, find the
first space character at or after i and replace it with a line break;
when no space occurs before the end the text is returned unchanged. -/
def spec_breakScan (txt : List Char) (i : Nat) : List Char :=
  if h : i < txt.length then
    if txt.get ⟨i, h⟩ = ' ' then txt.set i '\n'
    else spec_breakScan txt (i + 1)
  else txt
termination_by txt.length - i
decreasing_by simp_wf; omega

/-!
Helper lemmas shared by the claim theorems.
-/

theorem Precedence_nonneg (op : String) : 0 ≤ operators.Precedence op := by
  unfold operators.Precedence
  split_ifs <;> decide

theorem Precedence_eq_eight (g : String) (h : operators.Precedence g = 8) :
    g = operators.Conditional := by
  unfold operators.Precedence at h
  split_ifs at h <;> first | assumption | omega

theorem Precedence_Conditional : operators.Precedence operators.Conditional = 8 := by
  decide

theorem binary_prec_ne_zero (f : String) (hf : f ∈ binaryOperators) :
    operators.Precedence f ≠ 0 := by
  simp only [binaryOperators, List.mem_cons, List.not_mem_nil, or_false] at hf
  rcases hf with rfl|rfl|rfl|rfl|rfl|rfl|rfl|rfl|rfl|rfl|rfl|rfl|rfl|rfl|rfl <;> decide

theorem binary_not_special (f : String) (hf : f ∈ binaryOperators) :
    f ≠ operators.Conditional ∧ f ≠ operators.Index ∧
      ¬(f = operators.LogicalNot ∨ f = operators.Negate) := by
  simp only [binaryOperators, List.mem_cons, List.not_mem_nil, or_false] at hf
  rcases hf with rfl|rfl|rfl|rfl|rfl|rfl|rfl|rfl|rfl|rfl|rfl|rfl|rfl|rfl|rfl <;> decide

theorem isLowerPrecedence_eq_spec (f : String) (e : Expr) :
    isLowerPrecedence f e = spec_lhsParen f e := by
  cases e <;> simp only [isLowerPrecedence, spec_lhsParen, callFunction]
  case callE id tgt g args =>
    by_cases h : operators.Precedence f < operators.Precedence g
    · have h0 : operators.Precedence g ≠ 0 := by
        have := Precedence_nonneg f
        omega
      simp [h, h0]
    · simp [h]

theorem isSamePrecedence_eq_spec (f : String)
    (hf : operators.Precedence f ≠ 0) (e : Expr) :
    isSamePrecedence f e = spec_sameRank f e := by
  cases e <;> simp only [isSamePrecedence, spec_sameRank, callFunction]
  case callE id tgt g args =>
    by_cases h : operators.Precedence f = operators.Precedence g
    · have h0 : operators.Precedence g ≠ 0 := by omega
      simp [h, h0]
    · simp [h]

theorem isLeftRecursive_eq_spec (f : String) :
    isLeftRecursive f = spec_leftRecursive f := by
  simp only [isLeftRecursive, spec_leftRecursive]
  by_cases h1 : f = operators.LogicalAnd <;> by_cases h2 : f = operators.LogicalOr <;>
    simp [h1, h2]

theorem rhsParenFlag_eq_spec (f : String)
    (hf : operators.Precedence f ≠ 0) (e : Expr) :
    rhsParenFlag f e = spec_rhsParen f e := by
  simp only [rhsParenFlag, spec_rhsParen, isLowerPrecedence_eq_spec,
    isSamePrecedence_eq_spec f hf, isLeftRecursive_eq_spec]
  cases hL : spec_lhsParen f e <;> cases hR : spec_leftRecursive f <;>
    cases hS : spec_sameRank f e <;> simp [hL, hR, hS]

theorem isSamePrecedence_Conditional_eq (e : Expr) :
    isSamePrecedence operators.Conditional e = isConditionalCall e := by
  cases e <;> simp only [isSamePrecedence, isConditionalCall]
  case callE id tgt g args =>
    by_cases h : g = operators.Conditional
    · simp [h]
    · have h8 : operators.Precedence g ≠ 8 := fun hh => h (Precedence_eq_eight g hh)
      rw [Precedence_Conditional]
      simp [h]
      omega

theorem padLoop_append_replicate (buf : List Char) (last next : Int) :
    padLoop buf last next = buf ++ List.replicate (next - last).toNat ' ' := by
  by_cases h : last < next
  · have hk : ∀ (k : Nat) (b : List Char) (l : Int), (next - l).toNat = k →
        padLoop b l next = b ++ List.replicate (next - l).toNat ' ' := by
      intro k
      induction k with
      | zero =>
        intro b l hl
        rw [padLoop]
        have : ¬ l < next := by omega
        simp [this, hl]
      | succ n ih =>
        intro b l hl
        rw [padLoop]
        have hlt : l < next := by omega
        rw [if_pos hlt]
        rw [ih (b ++ [' ']) (l + 1) (by omega)]
        have h1 : (next - l).toNat = (next - (l + 1)).toNat + 1 := by omega
        rw [h1, List.replicate_succ, List.append_assoc]
        rfl
    exact hk (next - last).toNat buf last rfl
  · rw [padLoop]
    have h0 : (next - last).toNat = 0 := by omega
    simp [h, h0]

theorem breakLoop_eq_spec (txt : List Char) (br : Int) (hbr : 1 ≤ br) :
    breakLoop txt br = some (spec_breakScan txt (br - 1).toNat) := by
  have hk : ∀ (k : Nat) (b : Int), 1 ≤ b → txt.length - (b - 1).toNat = k →
      breakLoop txt b = some (spec_breakScan txt (b - 1).toNat) := by
    intro k
    induction k with
    | zero =>
      intro b hb hbk
      have h1 : ¬ (b - 1 < (txt.length : Int)) := by omega
      have h2 : ¬ ((b - 1).toNat < txt.length) := by omega
      rw [breakLoop, spec_breakScan, dif_neg h1, dif_neg h2]
    | succ n ih =>
      intro b hb hbk
      rw [breakLoop, spec_breakScan]
      have h1 : b - 1 < (txt.length : Int) := by omega
      have h2 : ¬ (b - 1 < 0) := by omega
      have h3 : (b - 1).toNat < txt.length := by omega
      rw [dif_pos h1, dif_neg h2, dif_pos h3]
      by_cases hsp : txt.get ⟨(b - 1).toNat, h3⟩ = ' '
      · rw [if_pos hsp, if_pos hsp]
      · rw [if_neg hsp, if_neg hsp]
        rw [ih (b + 1) (by omega) (by omega)]
        have he : ((b + 1) - 1).toNat = (b - 1).toNat + 1 := by omega
        rw [he]
  exact hk (txt.length - (br - 1).toNat) br hbr rfl

/-!
Claim theorems.
-/

/-- C4: for every node id and every output-buffer state, pad appends
exactly (recorded offset minus current output length) space characters
when the recorded offset exceeds the current length — the truncated
difference is zero otherwise, making pad a no-op when the offset is at
or behind the current length.  The result extends the old buffer by a
pure append, so characters already in the buffer are never removed or
changed, and pad is a total function: it never fails. -/
theorem c4_pad_appends_exact_gap (un : Unparser) (id : Nat) :
    pad un id =
      { un with
        buf := un.buf ++
          List.replicate (pos un id - (un.buf.length : Int)).toNat ' ' } := by
  unfold pad
  rw [padLoop_append_replicate]

/-- C10: a node id with no entry in the source position map is read as
offset zero, so the padding step before that node is a no-op and
rendering proceeds exactly as for an already-passed offset. -/
theorem c10_missing_position_is_noop (un : Unparser) (id : Nat)
    (h : un.info.positions.find? (fun p => p.1 = id) = none) :
    pos un id = 0 ∧ pad un id = un := by
  have hp : pos un id = 0 := by
    simp [pos, h]
  refine ⟨hp, ?_⟩
  unfold pad
  rw [padLoop_append_replicate, hp]
  have h0 : ((0 : Int) - (un.buf.length : Int)).toNat = 0 := by omega
  rw [h0]
  simp

theorem c10_missing_position_is_noop_witness :
    ((⟨⟨[(2, 7)], []⟩, ['a']⟩ : Unparser).info.positions.find?
        (fun p => p.1 = 5) = none) ∧
      pos ⟨⟨[(2, 7)], []⟩, ['a']⟩ 5 = 0 ∧
      pad ⟨⟨[(2, 7)], []⟩, ['a']⟩ 5 = ⟨⟨[(2, 7)], []⟩, ['a']⟩ :=
  ⟨by decide, c10_missing_position_is_noop ⟨⟨[(2, 7)], []⟩, ['a']⟩ 5 (by decide)⟩

/-- C8: visiting a comprehension node always fails with the explicit
unimplemented error carrying the node — so any visited comprehension
subexpression aborts the rendering with that error — and rendering a
tree rooted at a comprehension returns the unimplemented error with the
empty string, never partial output. -/
theorem c8_comprehension_unimplemented :
    (∀ (un : Unparser) (id : Nat),
      visit un (.comprehensionE id) =
        .error (.goError (.unimplemented (.comprehensionE id)))) ∧
    (∀ (id : Nat) (info : SourceInfo),
      Unparse (.comprehensionE id) info =
        some ("", some (.unimplemented (.comprehensionE id)))) := by
  have hv : ∀ (un : Unparser) (id : Nat),
      visit un (.comprehensionE id) =
        .error (.goError (.unimplemented (.comprehensionE id))) := by
    intro un id
    rw [visit]
    rfl
  refine ⟨hv, ?_⟩
  intro id info
  rw [Unparse, hv]

/-- C9: render is atomic — whenever Unparse returns an error value the
returned string is empty — and decode, returning through Except,
structurally yields either a fully decoded value or an error, never
both. -/
theorem c9_atomic_results :
    (∀ (e : Expr) (info : SourceInfo) (s : String) (r : RenderErr),
      Unparse e info = some (s, some r) → s = "") ∧
    (∀ (tok : String) (m : Bool),
      (∃ v, unescape tok m = .ok v) ∨ (∃ er, unescape tok m = .error er)) := by
  constructor
  · intro e info s r h
    rw [Unparse] at h
    rcases hv : visit { info := info, buf := [] } e with er | un
    · rcases er with r' | _
      · rw [hv] at h
        simp only [Option.some.injEq, Prod.mk.injEq] at h
        exact h.1.symm
      · rw [hv] at h
        simp at h
    · rw [hv] at h
      dsimp only at h
      rcases hb : applyLineBreaks un.buf info.lineOffsets with _ | txt
      · rw [hb] at h
        simp at h
      · rw [hb] at h
        simp at h
  · intro tok m
    rcases h : unescape tok m with er | v
    · exact Or.inr ⟨er, rfl⟩
    · exact Or.inl ⟨v, rfl⟩

theorem c9_atomic_results_witness :
    Unparse (.comprehensionE 1) ⟨[], []⟩ =
      some ("", some (.unimplemented (.comprehensionE 1))) ∧ ("" : String) = "" :=
  have h : Unparse (.comprehensionE 1) ⟨[], []⟩ =
      some ("", some (.unimplemented (.comprehensionE 1))) := by
    rw [Unparse, visit]
    rfl
  ⟨h, c9_atomic_results.1 (.comprehensionE 1) ⟨[], []⟩ ""
    (.unimplemented (.comprehensionE 1)) h⟩

/-- C3 counterexample: a successful render with exactly one recorded
line-break offset and a space at that offset.  The claim says the
replacement is performed for every recorded offset, including when only
one offset is recorded, which would turn the space into a line break;
the code skips the whole pass when one or fewer offsets are recorded
and returns the padded text with no line break. -/
theorem c3_counterexample :
    Unparse (.identE 1 "x") ⟨[(1, 2)], [1]⟩ = some ("  x", none) ∧
    spec_breakScan ("  x".data) 1 = [' ', '\n', 'x'] ∧
    ("  x".data ≠ [' ', '\n', 'x']) := by
  refine ⟨?_, ?_, by decide⟩
  · have hvisit : visit ⟨⟨[(1, 2)], [1]⟩, []⟩ (.identE 1 "x") =
        .ok ⟨⟨[(1, 2)], [1]⟩, [' ', ' ', 'x']⟩ := by
      rw [visit]
      simp [visitIdent, pad, pos, writeString, padLoop_append_replicate]
    rw [Unparse, hvisit]
    simp [applyLineBreaks]
  · rw [spec_breakScan]
    simp

/-- C3 amended: the line-break reinsertion pass runs only when at least
two line-break offsets are recorded; it then takes the offsets in
recorded order, and for each offset br at least 1 the scan starts at
index br - 1 (one character before the recorded offset, where the
original line break stood), replaces the first space character found
with a line break, and silently drops the break when no space occurs
before the end of the text (spec_breakScan describes exactly that
scan).  With one or zero recorded offsets the text is returned
unchanged: no replacement happens even when an offset with a following
space exists. -/
theorem c3_amended_line_breaks :
    (∀ (txt : List Char) (breaks : List Int), breaks.length ≤ 1 →
      applyLineBreaks txt breaks = some txt) ∧
    (∀ (txt : List Char) (breaks : List Int), 2 ≤ breaks.length →
      applyLineBreaks txt breaks = applyAllBreaks txt breaks) ∧
    (∀ (txt : List Char) (br : Int) (rest : List Int),
      applyAllBreaks txt (br :: rest) =
        match breakLoop txt br with
        | none => none
        | some txt1 => applyAllBreaks txt1 rest) ∧
    (∀ (txt : List Char) (br : Int), 1 ≤ br →
      breakLoop txt br = some (spec_breakScan txt (br - 1).toNat)) := by
  refine ⟨?_, ?_, ?_, breakLoop_eq_spec⟩
  · intro txt breaks h
    rw [applyLineBreaks, if_pos h]
  · intro txt breaks h
    rw [applyLineBreaks, if_neg (by omega)]
  · intro txt br rest
    rw [applyAllBreaks]

theorem c3_amended_line_breaks_witness :
    (([7] : List Int).length ≤ 1 ∧ applyLineBreaks ['y', ' '] [7] = some ['y', ' ']) ∧
    ((1 : Int) ≤ 2 ∧
      breakLoop ['y', ' '] 2 = some (spec_breakScan ['y', ' '] ((2 : Int) - 1).toNat)) :=
  ⟨⟨by decide, c3_amended_line_breaks.1 ['y', ' '] [7] (by decide)⟩,
   ⟨by decide, c3_amended_line_breaks.2.2.2 ['y', ' '] 2 (by decide)⟩⟩

/-- C1: for every binary operator rendered by visitCallBinary, the left
operand is parenthesized exactly when it is an operator call whose
operator binds strictly looser (strictly lower rank) than the current
operator, the right operand exactly when its operator binds strictly
looser or has exactly equal rank while the current operator is
left-recursive (every binary operator except logical-and and
logical-or), operands that are not operator calls are never
parenthesized, and visitMaybeNested emits the surrounding parentheses
exactly when the computed flag is set. -/
theorem c1_binary_operand_parenthesization (f : String)
    (hf : f ∈ binaryOperators) :
    (∀ e, isLowerPrecedence f e = spec_lhsParen f e) ∧
    (∀ e, rhsParenFlag f e = spec_rhsParen f e) ∧
    (∀ (un : Unparser) (id : Nat) (lhs rhs : Expr) (rest : List Expr),
      visitCallBinary un id f (lhs :: rhs :: rest) =
        match visitMaybeNested un lhs (spec_lhsParen f lhs) with
        | .error er => .error er
        | .ok un1 =>
          match operators.FindReverse f with
          | none => .error (.goError (.cannotUnmangle f))
          | some unmangled =>
            visitMaybeNested
              (writeString (writeString (pad (writeString un1 " ") id) unmangled) " ")
              rhs (spec_rhsParen f rhs)) ∧
    (∀ (un : Unparser) (x : Expr), visitMaybeNested un x false = visit un x) ∧
    (∀ (un : Unparser) (x : Expr),
      visitMaybeNested un x true =
        match visit (writeString un "(") x with
        | .error er => .error er
        | .ok un2 => .ok (writeString un2 ")")) := by
  have hne := binary_prec_ne_zero f hf
  refine ⟨isLowerPrecedence_eq_spec f, rhsParenFlag_eq_spec f hne, ?_, ?_, ?_⟩
  · intro un id lhs rhs rest
    rw [visitCallBinary]
    rw [isLowerPrecedence_eq_spec f lhs, rhsParenFlag_eq_spec f hne rhs]
  · intro un x
    rw [visitMaybeNested]
    rcases h : visit un x with er | un2 <;> simp [h]
  · intro un x
    rw [visitMaybeNested]
    rcases h : visit (writeString un "(") x with er | un2 <;> simp [h]

theorem c1_binary_operand_parenthesization_witness :
    operators.Subtract ∈ binaryOperators ∧
    isLowerPrecedence operators.Subtract
        (.callE 1 none operators.Add [.identE 2 "a", .identE 3 "b"]) =
      spec_lhsParen operators.Subtract
        (.callE 1 none operators.Add [.identE 2 "a", .identE 3 "b"]) ∧
    rhsParenFlag operators.Subtract
        (.callE 1 none operators.Subtract [.identE 2 "a", .identE 3 "b"]) =
      spec_rhsParen operators.Subtract
        (.callE 1 none operators.Subtract [.identE 2 "a", .identE 3 "b"]) :=
  ⟨by decide,
   (c1_binary_operand_parenthesization operators.Subtract (by decide)).1 _,
   (c1_binary_operand_parenthesization operators.Subtract (by decide)).2.1 _⟩

/-- C7: visitCallConditional renders the three operands in the ternary
form with the question-mark and colon separators, and each operand is
wrapped by visitMaybeNested with the flag set exactly when that operand
is itself a conditional call, regardless of its position; the wrapper
emits the parentheses exactly when the flag is set. -/
theorem c7_conditional_parenthesization :
    (∀ e, isSamePrecedence operators.Conditional e = isConditionalCall e) ∧
    (∀ (un : Unparser) (id : Nat) (a0 a1 a2 : Expr) (rest : List Expr),
      visitCallConditional un id (a0 :: a1 :: a2 :: rest) =
        match visitMaybeNested un a0 (isConditionalCall a0) with
        | .error er => .error er
        | .ok un1 =>
          match visitMaybeNested (writeString (pad un1 id) "? ") a1
              (isConditionalCall a1) with
          | .error er => .error er
          | .ok un3 =>
            visitMaybeNested (writeString un3 " : ") a2 (isConditionalCall a2)) ∧
    (∀ (un : Unparser) (x : Expr),
      visitMaybeNested un x true =
        match visit (writeString un "(") x with
        | .error er => .error er
        | .ok un2 => .ok (writeString un2 ")")) := by
  refine ⟨isSamePrecedence_Conditional_eq, ?_, ?_⟩
  · intro un id a0 a1 a2 rest
    rw [visitCallConditional.eq_def]
    simp only [isSamePrecedence_Conditional_eq]
  · intro un x
    rw [visitMaybeNested]
    rcases h : visit (writeString un "(") x with er | un2 <;> simp [h]

/-- C2 counterexample: a binary operator call with no arguments.  The
claim says render returns a RenderError describing the malformed tree
shape; the code indexes the argument slice before any check, an
uncontrolled index-out-of-range failure, so Unparse produces no result
at all (modelled as none) and in particular no RenderError. -/
theorem c2_counterexample :
    Unparse (.callE 1 none operators.LogicalAnd []) ⟨[], []⟩ = none := by
  have hv : visit ⟨⟨[], []⟩, []⟩ (.callE 1 none operators.LogicalAnd []) =
      .error .panic := by
    rw [visit, visitCall]
    simp [operators.LogicalAnd, operators.Conditional, operators.Index,
      operators.LogicalNot, operators.Negate, binaryOperators,
      operators.Add, operators.Divide, operators.Equals, operators.Greater,
      operators.GreaterEquals, operators.In, operators.Less,
      operators.LessEquals, operators.LogicalOr, operators.Modulo,
      operators.Multiply, operators.NotEquals, operators.OldIn,
      operators.Subtract, visitCallBinary]
  rw [Unparse, hv]

theorem visitCallBinary_short (un : Unparser) (id : Nat) (f : String)
    (args : List Expr) (h : args.length < 2) :
    visitCallBinary un id f args = .error .panic := by
  match args with
  | [] => rw [visitCallBinary]; simp
  | [a] => rw [visitCallBinary]; simp
  | a :: b :: t => simp at h; omega

/-- C2 amended: the renderer performs no argument-count checks.  A
binary operator call with fewer than two arguments indexes the slice
before visiting anything and fails uncontrolled (panic); an index call
with fewer than two arguments, or a conditional call with fewer than
three, either panics the same way or, when an operand visited before
the missing index itself fails, propagates that operand error — never a
RenderError describing the malformed tree shape (the code produces no
such error value).  A panic during the visit means Unparse returns no
result at all. -/
theorem c2_amended_missing_args_panic :
    (∀ (un : Unparser) (id : Nat) (tgt : Option Expr) (f : String)
        (args : List Expr), f ∈ binaryOperators → args.length < 2 →
      visit un (.callE id tgt f args) = .error .panic) ∧
    (∀ (un : Unparser) (id : Nat) (tgt : Option Expr) (args : List Expr),
      args.length < 2 →
      visit un (.callE id tgt operators.Index args) = .error .panic ∨
        ∃ r, visit un (.callE id tgt operators.Index args) = .error (.goError r)) ∧
    (∀ (un : Unparser) (id : Nat) (tgt : Option Expr) (args : List Expr),
      args.length < 3 →
      visit un (.callE id tgt operators.Conditional args) = .error .panic ∨
        ∃ r, visit un (.callE id tgt operators.Conditional args) =
          .error (.goError r)) ∧
    (∀ (e : Expr) (info : SourceInfo),
      visit ⟨info, []⟩ e = .error .panic → Unparse e info = none) := by
  refine ⟨?_, ?_, ?_, ?_⟩
  · intro un id tgt f args hf hlen
    obtain ⟨h1, h2, h3⟩ := binary_not_special f hf
    rw [visit, visitCall, if_neg h1, if_neg h2, if_neg h3, if_pos hf]
    exact visitCallBinary_short un id f args hlen
  · intro un id tgt args hlen
    rw [visit, visitCall, if_neg (by decide), if_pos rfl]
    match args with
    | [] =>
      left
      rw [visitCallIndex]
    | [a0] =>
      rcases hv : visit un a0 with er | un1
      · rcases er with r | _
        · right
          exact ⟨r, by rw [visitCallIndex, hv]⟩
        · left
          rw [visitCallIndex, hv]
      · left
        rw [visitCallIndex, hv]
    | a0 :: a1 :: t => simp at hlen; omega
  · intro un id tgt args hlen
    rw [visit, visitCall, if_pos rfl]
    match args with
    | [] =>
      left
      rw [visitCallConditional]
    | [a0] =>
      rcases hv : visitMaybeNested un a0
          (isSamePrecedence operators.Conditional a0) with er | un1
      · rcases er with r | _
        · right
          exact ⟨r, by rw [visitCallConditional, hv]⟩
        · left
          rw [visitCallConditional, hv]
      · left
        rw [visitCallConditional, hv]
    | [a0, a1] =>
      rcases hv : visitMaybeNested un a0
          (isSamePrecedence operators.Conditional a0) with er | un1
      · rcases er with r | _
        · right
          exact ⟨r, by rw [visitCallConditional, hv]⟩
        · left
          rw [visitCallConditional, hv]
      · rcases hv1 : visitMaybeNested (writeString (pad un1 id) "? ") a1
            (isSamePrecedence operators.Conditional a1) with er | un3
        · rcases er with r | _
          · right
            exact ⟨r, by rw [visitCallConditional, hv]; simp only [hv1]⟩
          · left
            rw [visitCallConditional, hv]
            simp only [hv1]
        · left
          rw [visitCallConditional, hv]
          simp only [hv1]
    | a0 :: a1 :: a2 :: t => simp at hlen; omega
  · intro e info h
    rw [Unparse, h]

theorem c2_amended_missing_args_panic_witness :
    operators.Subtract ∈ binaryOperators ∧ (([] : List Expr).length < 2) ∧
    visit ⟨⟨[], []⟩, []⟩ (.callE 1 none operators.Subtract []) = .error .panic :=
  ⟨by decide, by decide,
   c2_amended_missing_args_panic.1 ⟨⟨[], []⟩, []⟩ 1 none operators.Subtract []
     (by decide) (by decide)⟩

theorem octalDigit_ne_escapes (c : Char) (hc : isOctalDigit c = true) :
    c ≠ 'a' ∧ c ≠ 'b' ∧ c ≠ 'f' ∧ c ≠ 'n' ∧ c ≠ 'r' ∧ c ≠ 't' ∧ c ≠ 'v' ∧
    c ≠ '\'' ∧ c ≠ '"' ∧ c ≠ '\\' ∧ c ≠ '?' ∧ c ≠ 'x' ∧ c ≠ 'u' ∧ c ≠ 'U' := by
  simp only [isOctalDigit, Bool.and_eq_true, decide_eq_true_eq] at hc
  obtain ⟨h1, h2⟩ := hc
  refine ⟨?_, ?_, ?_, ?_, ?_, ?_, ?_, ?_, ?_, ?_, ?_, ?_, ?_, ?_⟩ <;>
    (rintro rfl; revert h1 h2; decide)

theorem escStep_octal3 (d1 d2 d3 : Char) (rest : List Char) (m : Bool)
    (h1 : isOctalDigit d1 = true) (h2 : isOctalDigit d2 = true)
    (h3 : isOctalDigit d3 = true)
    (hv : 64 * octalVal d1 + 8 * octalVal d2 + octalVal d3 ≤ 255) :
    escStep d1 (d2 :: d3 :: rest) m =
      .ok ([64 * octalVal d1 + 8 * octalVal d2 + octalVal d3], 2) := by
  obtain ⟨n1, n2, n3, n4, n5, n6, n7, n8, n9, n10, n11, n12, n13, n14⟩ :=
    octalDigit_ne_escapes d1 h1
  unfold escStep
  rw [if_neg n1, if_neg n2, if_neg n3, if_neg n4, if_neg n5, if_neg n6, if_neg n7,
    if_neg n8, if_neg n9, if_neg n10, if_neg n11, if_neg n12, if_neg n13,
    if_neg n14, if_pos h1]
  dsimp only
  rw [if_pos (show (isOctalDigit d2 && isOctalDigit d3) = true by
    rw [h2, h3]; rfl), if_pos hv]

theorem escStep_hex2 (h1 h2 : Char) (rest : List Char) (m : Bool)
    (hh1 : isHexDigit h1 = true) (hh2 : isHexDigit h2 = true) :
    escStep 'x' (h1 :: h2 :: rest) m = .ok ([16 * hexVal h1 + hexVal h2], 2) := by
  unfold escStep
  rw [if_neg (by decide), if_neg (by decide), if_neg (by decide),
    if_neg (by decide), if_neg (by decide), if_neg (by decide),
    if_neg (by decide), if_neg (by decide), if_neg (by decide),
    if_neg (by decide), if_neg (by decide), if_pos rfl]
  dsimp only
  rw [if_pos (show (isHexDigit h1 && isHexDigit h2) = true by rw [hh1, hh2]; rfl)]

theorem escStep_u_bytes (rest : List Char) :
    escStep 'u' rest true = .error "unicode escape is illegal in byte mode" := by
  unfold escStep
  rw [if_neg (by decide), if_neg (by decide), if_neg (by decide),
    if_neg (by decide), if_neg (by decide), if_neg (by decide),
    if_neg (by decide), if_neg (by decide), if_neg (by decide),
    if_neg (by decide), if_neg (by decide), if_neg (by decide), if_pos rfl,
    if_pos rfl]

theorem escStep_U_bytes (rest : List Char) :
    escStep 'U' rest true = .error "unicode escape is illegal in byte mode" := by
  unfold escStep
  rw [if_neg (by decide), if_neg (by decide), if_neg (by decide),
    if_neg (by decide), if_neg (by decide), if_neg (by decide),
    if_neg (by decide), if_neg (by decide), if_neg (by decide),
    if_neg (by decide), if_neg (by decide), if_neg (by decide),
    if_neg (by decide), if_pos rfl, if_pos rfl]

theorem escStep_u_text (h1 h2 h3 h4 : Char) (rest : List Char)
    (hh1 : isHexDigit h1 = true) (hh2 : isHexDigit h2 = true)
    (hh3 : isHexDigit h3 = true) (hh4 : isHexDigit h4 = true) :
    escStep 'u' (h1 :: h2 :: h3 :: h4 :: rest) false =
      .ok ([4096 * hexVal h1 + 256 * hexVal h2 + 16 * hexVal h3 + hexVal h4], 4) := by
  unfold escStep
  rw [if_neg (by decide), if_neg (by decide), if_neg (by decide),
    if_neg (by decide), if_neg (by decide), if_neg (by decide),
    if_neg (by decide), if_neg (by decide), if_neg (by decide),
    if_neg (by decide), if_neg (by decide), if_neg (by decide), if_pos rfl,
    if_neg (by decide)]
  dsimp only
  rw [if_pos (show (isHexDigit h1 && isHexDigit h2 && isHexDigit h3 &&
    isHexDigit h4) = true by rw [hh1, hh2, hh3, hh4]; rfl)]

theorem escStep_U_text (h1 h2 h3 h4 h5 h6 h7 h8 : Char) (rest : List Char)
    (hh1 : isHexDigit h1 = true) (hh2 : isHexDigit h2 = true)
    (hh3 : isHexDigit h3 = true) (hh4 : isHexDigit h4 = true)
    (hh5 : isHexDigit h5 = true) (hh6 : isHexDigit h6 = true)
    (hh7 : isHexDigit h7 = true) (hh8 : isHexDigit h8 = true) :
    escStep 'U' (h1 :: h2 :: h3 :: h4 :: h5 :: h6 :: h7 :: h8 :: rest) false =
      .ok ([268435456 * hexVal h1 + 16777216 * hexVal h2 + 1048576 * hexVal h3 +
        65536 * hexVal h4 + 4096 * hexVal h5 + 256 * hexVal h6 +
        16 * hexVal h7 + hexVal h8], 8) := by
  unfold escStep
  rw [if_neg (by decide), if_neg (by decide), if_neg (by decide),
    if_neg (by decide), if_neg (by decide), if_neg (by decide),
    if_neg (by decide), if_neg (by decide), if_neg (by decide),
    if_neg (by decide), if_neg (by decide), if_neg (by decide),
    if_neg (by decide), if_pos rfl, if_neg (by decide)]
  dsimp only
  rw [if_pos (show (isHexDigit h1 && isHexDigit h2 && isHexDigit h3 &&
    isHexDigit h4 && isHexDigit h5 && isHexDigit h6 && isHexDigit h7 &&
    isHexDigit h8) = true by rw [hh1, hh2, hh3, hh4, hh5, hh6, hh7, hh8]; rfl)]

theorem escStep_octal2_mid (d1 d2 c : Char) (rest : List Char) (m : Bool)
    (h1 : isOctalDigit d1 = true) (h2 : isOctalDigit d2 = true)
    (hc : isOctalDigit c = false) :
    escStep d1 (d2 :: c :: rest) m = .ok ([8 * octalVal d1 + octalVal d2], 1) := by
  obtain ⟨n1, n2, n3, n4, n5, n6, n7, n8, n9, n10, n11, n12, n13, n14⟩ :=
    octalDigit_ne_escapes d1 h1
  unfold escStep
  rw [if_neg n1, if_neg n2, if_neg n3, if_neg n4, if_neg n5, if_neg n6, if_neg n7,
    if_neg n8, if_neg n9, if_neg n10, if_neg n11, if_neg n12, if_neg n13,
    if_neg n14, if_pos h1]
  dsimp only
  rw [if_neg (by simp [hc]), if_pos h2]

theorem escStep_octal2_end (d1 d2 : Char) (m : Bool)
    (h1 : isOctalDigit d1 = true) (h2 : isOctalDigit d2 = true) :
    escStep d1 [d2] m = .ok ([8 * octalVal d1 + octalVal d2], 1) := by
  obtain ⟨n1, n2, n3, n4, n5, n6, n7, n8, n9, n10, n11, n12, n13, n14⟩ :=
    octalDigit_ne_escapes d1 h1
  unfold escStep
  rw [if_neg n1, if_neg n2, if_neg n3, if_neg n4, if_neg n5, if_neg n6, if_neg n7,
    if_neg n8, if_neg n9, if_neg n10, if_neg n11, if_neg n12, if_neg n13,
    if_neg n14, if_pos h1]
  dsimp only
  rw [if_pos h2]

theorem escStep_octal1_mid (d1 c : Char) (rest : List Char) (m : Bool)
    (h1 : isOctalDigit d1 = true) (hc : isOctalDigit c = false) :
    escStep d1 (c :: rest) m = .ok ([octalVal d1], 0) := by
  obtain ⟨n1, n2, n3, n4, n5, n6, n7, n8, n9, n10, n11, n12, n13, n14⟩ :=
    octalDigit_ne_escapes d1 h1
  unfold escStep
  rw [if_neg n1, if_neg n2, if_neg n3, if_neg n4, if_neg n5, if_neg n6, if_neg n7,
    if_neg n8, if_neg n9, if_neg n10, if_neg n11, if_neg n12, if_neg n13,
    if_neg n14, if_pos h1]
  cases rest with
  | nil =>
    dsimp only
    rw [if_neg (by simp [hc])]
  | cons r rs =>
    dsimp only
    rw [if_neg (by simp [hc]), if_neg (by simp [hc])]

theorem escStep_octal1_end (d1 : Char) (m : Bool) (h1 : isOctalDigit d1 = true) :
    escStep d1 [] m = .ok ([octalVal d1], 0) := by
  obtain ⟨n1, n2, n3, n4, n5, n6, n7, n8, n9, n10, n11, n12, n13, n14⟩ :=
    octalDigit_ne_escapes d1 h1
  unfold escStep
  rw [if_neg n1, if_neg n2, if_neg n3, if_neg n4, if_neg n5, if_neg n6, if_neg n7,
    if_neg n8, if_neg n9, if_neg n10, if_neg n11, if_neg n12, if_neg n13,
    if_neg n14, if_pos h1]

/-- C5: each octal escape of one to three octal digits — three digits
when the next two characters are octal digits, two when exactly the
next one is, one otherwise (the greedy one-to-three digit grammar of
the spec) — and each two-digit hex escape, resolves to exactly one
decoded unit whose numeric value is the value of that escape, prepended
to the decoding of the rest of the body in either mode — adjacent
escapes are never reassembled into a single multi-byte code point — and
in particular the token holding the two octal escapes 303 and 277
decodes in text mode to the two code points 195 and 191, not to the
single code point 255.  One- and two-digit escape values are at most 63
and need no 0-255 side condition. -/
theorem c5_octal_hex_single_unit :
    (∀ (d1 d2 d3 : Char) (rest : List Char) (m : Bool),
      isOctalDigit d1 = true → isOctalDigit d2 = true → isOctalDigit d3 = true →
      64 * octalVal d1 + 8 * octalVal d2 + octalVal d3 ≤ 255 →
      scanBody ('\\' :: d1 :: d2 :: d3 :: rest) m =
        (scanBody rest m).map
          (fun l => (64 * octalVal d1 + 8 * octalVal d2 + octalVal d3) :: l)) ∧
    (∀ (d1 d2 c : Char) (rest : List Char) (m : Bool),
      isOctalDigit d1 = true → isOctalDigit d2 = true → isOctalDigit c = false →
      scanBody ('\\' :: d1 :: d2 :: c :: rest) m =
        (scanBody (c :: rest) m).map
          (fun l => (8 * octalVal d1 + octalVal d2) :: l)) ∧
    (∀ (d1 d2 : Char) (m : Bool),
      isOctalDigit d1 = true → isOctalDigit d2 = true →
      scanBody ['\\', d1, d2] m =
        (scanBody [] m).map (fun l => (8 * octalVal d1 + octalVal d2) :: l)) ∧
    (∀ (d1 c : Char) (rest : List Char) (m : Bool),
      isOctalDigit d1 = true → isOctalDigit c = false →
      scanBody ('\\' :: d1 :: c :: rest) m =
        (scanBody (c :: rest) m).map (fun l => octalVal d1 :: l)) ∧
    (∀ (d1 : Char) (m : Bool), isOctalDigit d1 = true →
      scanBody ['\\', d1] m =
        (scanBody [] m).map (fun l => octalVal d1 :: l)) ∧
    (∀ (h1 h2 : Char) (rest : List Char) (m : Bool),
      isHexDigit h1 = true → isHexDigit h2 = true →
      scanBody ('\\' :: 'x' :: h1 :: h2 :: rest) m =
        (scanBody rest m).map (fun l => (16 * hexVal h1 + hexVal h2) :: l)) ∧
    unescape "\"\\303\\277\"" false = .ok [195, 191] ∧
    ([(195 : Nat), 191] ≠ [255]) := by
  have hoct : ∀ (d1 d2 d3 : Char) (rest : List Char) (m : Bool),
      isOctalDigit d1 = true → isOctalDigit d2 = true → isOctalDigit d3 = true →
      64 * octalVal d1 + 8 * octalVal d2 + octalVal d3 ≤ 255 →
      scanBody ('\\' :: d1 :: d2 :: d3 :: rest) m =
        (scanBody rest m).map
          (fun l => (64 * octalVal d1 + 8 * octalVal d2 + octalVal d3) :: l) := by
    intro d1 d2 d3 rest m h1 h2 h3 hv
    rw [scanBody, escStep_octal3 d1 d2 d3 rest m h1 h2 h3 hv]
    dsimp only [List.drop]
    simp only [List.singleton_append]
  refine ⟨hoct, ?_, ?_, ?_, ?_, ?_, ?_, by decide⟩
  · intro d1 d2 c rest m h1 h2 hc
    rw [scanBody, escStep_octal2_mid d1 d2 c rest m h1 h2 hc]
    dsimp only [List.drop]
    simp only [List.singleton_append]
  · intro d1 d2 m h1 h2
    conv_lhs => rw [scanBody]
    rw [escStep_octal2_end d1 d2 m h1 h2]
    dsimp only [List.drop]
    simp only [List.singleton_append]
  · intro d1 c rest m h1 hc
    rw [scanBody, escStep_octal1_mid d1 c rest m h1 hc]
    dsimp only [List.drop]
    simp only [List.singleton_append]
  · intro d1 m h1
    conv_lhs => rw [scanBody]
    rw [escStep_octal1_end d1 m h1]
    dsimp only [List.drop]
    simp only [List.singleton_append]
  · intro h1 h2 rest m hh1 hh2
    rw [scanBody, escStep_hex2 h1 h2 rest m hh1 hh2]
    dsimp only [List.drop]
    simp only [List.singleton_append]
  · have hs : stripQuotes ("\"\\303\\277\"".data) =
        .ok ['\\', '3', '0', '3', '\\', '2', '7', '7'] := by rfl
    rw [unescape, hs]
    dsimp only
    rw [hoct '3' '0' '3' ['\\', '2', '7', '7'] false (by decide) (by decide)
      (by decide) (by decide)]
    rw [hoct '2' '7' '7' [] false (by decide) (by decide) (by decide) (by decide)]
    rw [scanBody]
    rfl

theorem c5_octal_hex_single_unit_witness :
    (isOctalDigit '3' = true ∧ isOctalDigit '0' = true ∧
      (64 * octalVal '3' + 8 * octalVal '0' + octalVal '3' ≤ 255) ∧
      scanBody ['\\', '3', '0', '3'] false =
        (scanBody [] false).map
          (fun l => (64 * octalVal '3' + 8 * octalVal '0' + octalVal '3') :: l)) ∧
    (isOctalDigit 'z' = false ∧
      scanBody ['\\', '4', '7', 'z'] false =
        (scanBody ['z'] false).map
          (fun l => (8 * octalVal '4' + octalVal '7') :: l)) ∧
    scanBody ['\\', '7'] false =
      (scanBody [] false).map (fun l => octalVal '7' :: l) :=
  ⟨⟨by decide, by decide, by decide,
    c5_octal_hex_single_unit.1 '3' '0' '3' [] false (by decide) (by decide)
      (by decide) (by decide)⟩,
   ⟨by decide,
    c5_octal_hex_single_unit.2.1 '4' '7' 'z' [] false (by decide) (by decide)
      (by decide)⟩,
   c5_octal_hex_single_unit.2.2.2.2.1 '7' false (by decide)⟩

/-- C6: an encountered unicode escape (lower u with four hex digits or
upper U with eight) is always a decode error in byte mode — the error is
raised as soon as the escape introducer is seen, whatever follows —
while in text mode it decodes to exactly the code point with that
numeric value; in particular the token holding the escape u00ff fails
in byte mode. -/
theorem c6_unicode_escape_modes :
    (∀ rest : List Char, scanBody ('\\' :: 'u' :: rest) true =
      .error "unicode escape is illegal in byte mode") ∧
    (∀ rest : List Char, scanBody ('\\' :: 'U' :: rest) true =
      .error "unicode escape is illegal in byte mode") ∧
    (∀ (h1 h2 h3 h4 : Char) (rest : List Char),
      isHexDigit h1 = true → isHexDigit h2 = true → isHexDigit h3 = true →
      isHexDigit h4 = true →
      scanBody ('\\' :: 'u' :: h1 :: h2 :: h3 :: h4 :: rest) false =
        (scanBody rest false).map (fun l =>
          (4096 * hexVal h1 + 256 * hexVal h2 + 16 * hexVal h3 + hexVal h4) :: l)) ∧
    (∀ (h1 h2 h3 h4 h5 h6 h7 h8 : Char) (rest : List Char),
      isHexDigit h1 = true → isHexDigit h2 = true → isHexDigit h3 = true →
      isHexDigit h4 = true → isHexDigit h5 = true → isHexDigit h6 = true →
      isHexDigit h7 = true → isHexDigit h8 = true →
      scanBody ('\\' :: 'U' :: h1 :: h2 :: h3 :: h4 :: h5 :: h6 :: h7 :: h8 :: rest)
          false =
        (scanBody rest false).map (fun l =>
          (268435456 * hexVal h1 + 16777216 * hexVal h2 + 1048576 * hexVal h3 +
           65536 * hexVal h4 + 4096 * hexVal h5 + 256 * hexVal h6 +
           16 * hexVal h7 + hexVal h8) :: l)) ∧
    unescape "\"\\u00ff\"" true = .error "unicode escape is illegal in byte mode" := by
  have hu : ∀ rest : List Char, scanBody ('\\' :: 'u' :: rest) true =
      .error "unicode escape is illegal in byte mode" := by
    intro rest
    rw [scanBody, escStep_u_bytes rest]
  refine ⟨hu, ?_, ?_, ?_, ?_⟩
  · intro rest
    rw [scanBody, escStep_U_bytes rest]
  · intro h1 h2 h3 h4 rest hh1 hh2 hh3 hh4
    rw [scanBody, escStep_u_text h1 h2 h3 h4 rest hh1 hh2 hh3 hh4]
    dsimp only [List.drop]
    simp only [List.singleton_append]
  · intro h1 h2 h3 h4 h5 h6 h7 h8 rest hh1 hh2 hh3 hh4 hh5 hh6 hh7 hh8
    rw [scanBody, escStep_U_text h1 h2 h3 h4 h5 h6 h7 h8 rest
      hh1 hh2 hh3 hh4 hh5 hh6 hh7 hh8]
    dsimp only [List.drop]
    simp only [List.singleton_append]
  · have hs : stripQuotes ("\"\\u00ff\"".data) =
        .ok ['\\', 'u', '0', '0', 'f', 'f'] := by rfl
    rw [unescape, hs]
    dsimp only
    exact hu ['0', '0', 'f', 'f']

theorem c6_unicode_escape_modes_witness :
    isHexDigit '0' = true ∧ isHexDigit 'f' = true ∧
    scanBody ['\\', 'u', '0', '0', 'f', 'f'] false =
      (scanBody [] false).map (fun l =>
        (4096 * hexVal '0' + 256 * hexVal '0' + 16 * hexVal 'f' + hexVal 'f') :: l) :=
  ⟨by decide, by decide,
   c6_unicode_escape_modes.2.2.1 '0' '0' 'f' 'f' [] (by decide) (by decide)
     (by decide) (by decide)⟩

/-!
Conformance of the spec-modelled decoder with the tests of
src/parser/unescape_test.go: every expectation of that file is checked
against the model (text mode is the false flag, byte mode the true
flag; results are code points respectively byte values).
-/

example : unescape "'hello'" false = .ok [104, 101, 108, 108, 111] := by
  simp [unescape, stripQuotes, scanBody]
  rfl

example : unescape "\"\"" false = .ok [] := by
  simp [unescape, stripQuotes, scanBody]

example : unescape "\"\\\\\\\"\"" false = .ok [92, 34] := by
  simp [unescape, stripQuotes, scanBody, escStep]
  rfl

example : unescape "\"\\\\\"" false = .ok [92] := by
  simp [unescape, stripQuotes, scanBody, escStep]
  rfl

example : unescape "'''x''x'''" false = .ok [120, 39, 39, 120] := by
  simp [unescape, stripQuotes, scanBody]
  rfl

example : unescape "\"\"\"x\"\"x\"\"\"" false = .ok [120, 34, 34, 120] := by
  simp [unescape, stripQuotes, scanBody]
  rfl

example : unescape "\"\\377\"" false = .ok [255] := by
  simp [unescape, stripQuotes, scanBody, escStep, isOctalDigit, octalVal]
  rfl

example : unescape "\"\\u263A\\u263A\"" false = .ok [9786, 9786] := by
  simp [unescape, stripQuotes, scanBody, escStep, isHexDigit, hexVal]
  rfl

example :
    unescape "\"\\a\\b\\f\\n\\r\\t\\v\\'\\\"\\\\\\? Legal escapes\"" false =
      .ok [7, 8, 12, 10, 13, 9, 11, 39, 34, 92, 63, 32, 76, 101, 103, 97, 108,
        32, 101, 115, 99, 97, 112, 101, 115] := by
  simp [unescape, stripQuotes, scanBody, escStep]
  rfl

example :
    unescape "\"\\a\\b\\f\\n\\r\\t\\v\\'\\\"\\\\\\? Illegal escape \\>\"" false =
      .error "illegal escape >" := by
  simp [unescape, stripQuotes, scanBody, escStep, isOctalDigit]
  rfl

example : unescape "\"abc\"" true = .ok [97, 98, 99] := by
  simp [unescape, stripQuotes, scanBody, utf8Encode]
  rfl

example : unescape "\"ÿ\"" true = .ok [195, 191] := by
  simp [unescape, stripQuotes, scanBody, utf8Encode]
  rfl

example : unescape "\"\\303\\277\"" true = .ok [195, 191] := by
  simp [unescape, stripQuotes, scanBody, escStep, isOctalDigit, octalVal]
  rfl

example : unescape "\"\\377\"" true = .ok [255] := by
  simp [unescape, stripQuotes, scanBody, escStep, isOctalDigit, octalVal]
  rfl

example : unescape "\"\\xc3\\xbf\"" true = .ok [195, 191] := by
  simp [unescape, stripQuotes, scanBody, escStep, isHexDigit, hexVal]
  rfl

example : unescape "\"\\xff\"" true = .ok [255] := by
  simp [unescape, stripQuotes, scanBody, escStep, isHexDigit, hexVal]
  rfl

example : unescape "\"\\u00ff\"" true =
    .error "unicode escape is illegal in byte mode" := by
  simp [unescape, stripQuotes, scanBody, escStep]
